import Mathlib

/-!
Verification of the commander session/streaming core

A shallow embedding, in Lean 4, of the pure core of the `commander`
Tauri backend (Rust), together with theorems settling the frozen claims
about it.

Embedded components:
* `sanitize_cli_output_line` and `CodexStreamAccumulator`
  (`src-tauri/src/services/cli_output_service.rs`);
* `parse_command_structure`, `build_agent_command_args`,
  `get_agent_quit_command`, `generate_session_key`,
  `terminate_session_process`, `cleanup_inactive_sessions`,
  `send_quit_to_session` (`src-tauri/src/commands/cli_commands.rs`).

Strings manipulated byte-wise in the Rust source are modelled as
`List Char` (all delimiters involved are ASCII, so byte positions and
character positions agree on the inputs of interest); strings only
compared or concatenated are modelled as Lean `String`.  The session
registry's two hash maps are modelled as association lists; process
handles and stdin channels are modelled as abstract tokens, since only
their presence/absence and identity matter to the claims.
-/

/-! Section: Stream accumulator (`cli_output_service.rs`) -/

/-- A byte is a segment separator iff it is `\r` or `\n`
(`push_chunk`, line 55 of `cli_output_service.rs`). -/
def isSep (c : Char) : Bool := c == '\r' || c == '\n'

/-- The scanning loop of `push_chunk` (lines 48–72): walk the buffer,
emitting the maximal separator-free segment accumulated so far whenever a
separator is hit (the `start < idx` guard drops empty segments, which is
exactly the "skip consecutive separators" behaviour), and return the
completed segments together with the trailing partial segment that stays
buffered. -/
def scanBuf : List Char → List Char → List (List Char) × List Char
  | acc, [] => ([], acc)
  | acc, c :: rest =>
    if isSep c then
      let r := scanBuf [] rest
      if acc.isEmpty then r else (acc :: r.1, r.2)
    else
      scanBuf (acc ++ [c]) rest

/-- Embeds `str::trim` on a character list (whitespace stripped from both ends). -/
def trimChars (s : List Char) : List Char :=
  ((s.dropWhile Char.isWhitespace).reverse.dropWhile Char.isWhitespace).reverse

/-- Embeds `str::strip_prefix`. -/
def stripPrefixChars (p s : List Char) : Option (List Char) :=
  if p.isPrefixOf s then some (s.drop p.length) else none

/-- Embeds `str::eq_ignore_ascii_case` (Lean's `Char.toLower` folds exactly the
ASCII range, matching Rust's ASCII case folding). -/
def eqIgnoreAsciiCaseChars (a b : List Char) : Bool :=
  a.map Char.toLower == b.map Char.toLower

/-- Embeds `CodexStreamAccumulator::process_segment` (lines 93–113): trim the
segment; drop it if empty; on a `data:` prefix, strip the prefix, trim,
and drop empty payloads and the `[DONE]` sentinel, otherwise emit the
payload; drop `event:`/`id:` comment lines; emit anything else verbatim
(trimmed).  Returns the list of messages pushed onto `results` (zero or
one). -/
def process_segment (segment : List Char) : List (List Char) :=
  let trimmed := trimChars segment
  if trimmed.isEmpty then []
  else
    match stripPrefixChars ("data:".toList) trimmed with
    | some rest =>
      let data := trimChars rest
      if data.isEmpty || eqIgnoreAsciiCaseChars data ("[DONE]".toList) then []
      else [data]
    | none =>
      if ("event:".toList).isPrefixOf trimmed || ("id:".toList).isPrefixOf trimmed then []
      else [trimmed]

/-- Embeds `CodexStreamAccumulator` (line 32): a single string buffer. -/
structure CodexStreamAccumulator where
  buffer : List Char
deriving DecidableEq

/-- Embeds `CodexStreamAccumulator::new` / `Default`. -/
def CodexStreamAccumulator.new : CodexStreamAccumulator := ⟨[]⟩

/-- Embeds `CodexStreamAccumulator::push_chunk` (lines 41–80): append the chunk
to the buffer, scan for separator-delimited segments, process each
completed segment, keep the trailing remainder buffered. -/
def push_chunk (st : CodexStreamAccumulator) (chunk : List Char) :
    List (List Char) × CodexStreamAccumulator :=
  if chunk.isEmpty then ([], st)
  else
    let scanned := scanBuf [] (st.buffer ++ chunk)
    ((scanned.1.map process_segment).flatten, ⟨scanned.2⟩)

/-- Embeds `CodexStreamAccumulator::flush` (lines 82–91): on an empty buffer
return `None`; otherwise drain the buffer, process it as one segment, and
return `results.pop()` — the *last* produced message only. -/
def flush (st : CodexStreamAccumulator) : Option (List Char) × CodexStreamAccumulator :=
  if st.buffer.isEmpty then (none, st)
  else
    let results := process_segment st.buffer
    (results.getLast?, ⟨[]⟩)

/-- Repeated `push_chunk` across a list of chunks, concatenating the
emitted message lists. -/
def pushAll (st : CodexStreamAccumulator) (chunks : List (List Char)) :
    List (List Char) × CodexStreamAccumulator :=
  chunks.foldl (fun p c => ((p.1 ++ (push_chunk p.2 c).1), (push_chunk p.2 c).2)) ([], st)

/-- No character of `l` is a separator. -/
def noSep (l : List Char) : Bool := l.all (fun c => !(isSep c))

/-! Subsection: Framing lemmas -/

theorem scanBuf_partial_noSep (l : List Char) :
    ∀ acc : List Char, noSep acc = true → noSep (scanBuf acc l).2 = true := by
  induction l with
  | nil => intro acc h; simpa [scanBuf] using h
  | cons c rest ih =>
    intro acc h
    by_cases hs : isSep c = true
    · have h2 := ih [] (by simp [noSep])
      simp only [scanBuf, hs, if_true]
      by_cases ha : acc.isEmpty <;> simp [ha, h2]
    · have hs' : isSep c = false := by simpa using hs
      have h2 : noSep (acc ++ [c]) = true := by
        simp only [noSep, List.all_append, List.all_cons, List.all_nil] at *
        simp [h, hs']
      simpa [scanBuf, hs'] using ih (acc ++ [c]) h2

theorem scanBuf_noSep_run (x : List Char) :
    ∀ acc : List Char, noSep x = true → scanBuf acc x = ([], acc ++ x) := by
  induction x with
  | nil => intro acc _; simp [scanBuf]
  | cons c rest ih =>
    intro acc h
    simp only [noSep, List.all_cons, Bool.and_eq_true] at h
    have hs : isSep c = false := by simpa using h.1
    have := ih (acc ++ [c]) (by simpa [noSep] using h.2)
    simp [scanBuf, hs, this]

theorem scanBuf_append (a : List Char) :
    ∀ (b acc : List Char),
      scanBuf acc (a ++ b)
        = ((scanBuf acc a).1 ++ (scanBuf (scanBuf acc a).2 b).1,
           (scanBuf (scanBuf acc a).2 b).2) := by
  induction a with
  | nil => intro b acc; simp [scanBuf]
  | cons c rest ih =>
    intro b acc
    by_cases hs : isSep c = true
    · simp only [List.cons_append, scanBuf, hs, if_true, List.append_eq]
      rw [ih b []]
      by_cases ha : acc.isEmpty <;> simp [ha]
    · have hs' : isSep c = false := by simpa using hs
      simp only [List.cons_append, scanBuf, hs', Bool.false_eq_true, if_false]
      exact ih b (acc ++ [c])

theorem push_chunk_append (st : CodexStreamAccumulator) (c1 c2 : List Char) :
    (push_chunk st (c1 ++ c2)).1
        = (push_chunk st c1).1 ++ (push_chunk (push_chunk st c1).2 c2).1
      ∧ (push_chunk st (c1 ++ c2)).2 = (push_chunk (push_chunk st c1).2 c2).2 := by
  by_cases h1 : c1.isEmpty
  · have : c1 = [] := by simpa using h1
    subst this; simp [push_chunk]
  · by_cases h2 : c2.isEmpty
    · have : c2 = [] := by simpa using h2
      subst this; simp [push_chunk, h1]
    · have h12 : (c1 ++ c2).isEmpty = false := by
        cases c1 <;> simp_all
      have h1' : c1.isEmpty = false := by simpa using h1
      have h2' : c2.isEmpty = false := by simpa using h2
      have hassoc : st.buffer ++ (c1 ++ c2) = (st.buffer ++ c1) ++ c2 := by
        simp [List.append_assoc]
      set P1 := (scanBuf [] (st.buffer ++ c1)).2 with hP1
      have hnos : noSep P1 = true := scanBuf_partial_noSep _ [] (by simp [noSep])
      have hsplit := scanBuf_append (st.buffer ++ c1) c2 []
      have hrun : scanBuf [] P1 = ([], P1) := by
        simpa using scanBuf_noSep_run P1 [] hnos
      have hsecond := scanBuf_append P1 c2 ([] : List Char)
      rw [hrun] at hsecond
      simp only at hsecond
      constructor
      · simp only [push_chunk, h1', h2', h12, Bool.false_eq_true, if_false]
        rw [hassoc, hsplit]
        simp only [← hP1, hsecond]
        simp [List.map_append]
      · simp only [push_chunk, h1', h2', h12, Bool.false_eq_true, if_false]
        rw [hassoc, hsplit]
        simp [← hP1, hsecond]

theorem pushAll_cons_general (st : CodexStreamAccumulator) (r : List (List Char))
    (cs : List (List Char)) :
    cs.foldl (fun p c => ((p.1 ++ (push_chunk p.2 c).1), (push_chunk p.2 c).2)) (r, st)
      = (r ++ (pushAll st cs).1, (pushAll st cs).2) := by
  induction cs generalizing st r with
  | nil => simp [pushAll]
  | cons c cs ih =>
    simp only [pushAll, List.foldl_cons]
    rw [ih, ih]
    simp [List.append_assoc]

theorem pushAll_eq_single (chunks : List (List Char)) :
    ∀ st : CodexStreamAccumulator,
      pushAll st chunks = push_chunk st chunks.flatten := by
  induction chunks with
  | nil => intro st; simp [pushAll, push_chunk]
  | cons c cs ih =>
    intro st
    have hstep := pushAll_cons_general (push_chunk st c).2 (push_chunk st c).1 cs
    have happ := push_chunk_append st c cs.flatten
    calc pushAll st (c :: cs)
        = ((push_chunk st c).1 ++ (pushAll (push_chunk st c).2 cs).1,
           (pushAll (push_chunk st c).2 cs).2) := by
          simp only [pushAll, List.foldl_cons, List.nil_append]
          exact hstep
      _ = ((push_chunk st c).1 ++ (push_chunk (push_chunk st c).2 cs.flatten).1,
           (push_chunk (push_chunk st c).2 cs.flatten).2) := by rw [ih]
      _ = push_chunk st (c :: cs).flatten := by
          simp only [List.flatten_cons]
          exact (Prod.ext happ.1.symm happ.2.symm)

/-! Subsection: Claims about the accumulator -/

/-- C1: pushing the single chunk `"data: {"a":1}\r\ndata: [DONE]\r\n"` into a
fresh accumulator yields exactly the one message `"{"a":1}"`; and for every
way of splitting any string into a sequence of chunks, the concatenation of
the message lists returned by successive `push_chunk` calls, together with
the final `flush` result, equals what a fresh accumulator produces when the
whole string is pushed as one chunk followed by `flush`. -/
theorem codex_accumulator_framing :
    push_chunk CodexStreamAccumulator.new ("data: \x7b\"a\":1\x7d\r\ndata: [DONE]\r\n".toList)
        = ([("\x7b\"a\":1\x7d".toList)], ⟨[]⟩)
    ∧ ∀ chunks : List (List Char),
        (pushAll CodexStreamAccumulator.new chunks).1
            = (push_chunk CodexStreamAccumulator.new chunks.flatten).1
          ∧ flush (pushAll CodexStreamAccumulator.new chunks).2
              = flush (push_chunk CodexStreamAccumulator.new chunks.flatten).2 := by
  constructor
  · decide
  · intro chunks
    rw [pushAll_eq_single chunks CodexStreamAccumulator.new]
    exact ⟨rfl, rfl⟩

/-- C10: after every `push_chunk` call (starting from a separator-free
buffer, as every reachable state is), the accumulator's buffer contains no
carriage-return or newline character; and a single segment is processed
into at most one message, so a subsequent `flush` can produce at most one
message. -/
theorem push_chunk_buffer_noSep (st : CodexStreamAccumulator) (chunk : List Char)
    (h : noSep st.buffer = true) :
    noSep (push_chunk st chunk).2.buffer = true
    ∧ ∀ seg : List Char, (process_segment seg).length ≤ 1 := by
  constructor
  · by_cases hc : chunk.isEmpty
    · simpa [push_chunk, hc] using h
    · have hc' : chunk.isEmpty = false := by simpa using hc
      simp only [push_chunk, hc', Bool.false_eq_true, if_false]
      exact scanBuf_partial_noSep _ [] (by simp [noSep])
  · intro seg
    simp only [process_segment]
    split
    · simp
    · split
      · split
        · simp
        · simp
      · split
        · simp
        · simp

/-- Witness for C10 at a concrete state and chunk. -/
theorem push_chunk_buffer_noSep_witness :
    noSep (push_chunk CodexStreamAccumulator.new ("ab\r\nc".toList)).2.buffer = true :=
  (push_chunk_buffer_noSep CodexStreamAccumulator.new ("ab\r\nc".toList) (by decide)).1

/-- C7: `flush` on an empty buffer returns `None`; on a non-empty buffer it
processes the whole remaining buffer as one segment and returns only the
last message that processing produced — `None` when the segment reduces to
noise (`event:`/`id:` lines), an empty payload, or the `[DONE]` sentinel —
and after `flush` the buffer is always empty. -/
theorem flush_spec :
    (∀ st : CodexStreamAccumulator,
        (st.buffer = [] → flush st = (none, st))
        ∧ (st.buffer ≠ [] →
            flush st = ((process_segment st.buffer).getLast?, ⟨[]⟩))
        ∧ (flush st).2.buffer = [])
    ∧ flush ⟨"data: [DONE]".toList⟩ = (none, ⟨[]⟩)
    ∧ flush ⟨"data: [done]".toList⟩ = (none, ⟨[]⟩)
    ∧ flush ⟨"data:".toList⟩ = (none, ⟨[]⟩)
    ∧ flush ⟨"event: message".toList⟩ = (none, ⟨[]⟩)
    ∧ flush ⟨"id: 7".toList⟩ = (none, ⟨[]⟩)
    ∧ flush ⟨"   ".toList⟩ = (none, ⟨[]⟩)
    ∧ flush ⟨"data: \x7b\"ok\":true\x7d".toList⟩
        = (some ("\x7b\"ok\":true\x7d".toList), ⟨[]⟩) := by
  refine ⟨?_, by decide, by decide, by decide, by decide, by decide, by decide, by decide⟩
  intro st
  refine ⟨?_, ?_, ?_⟩
  · intro h
    simp [flush, h]
  · intro h
    have hb : st.buffer.isEmpty = false := by
      cases hbuf : st.buffer with
      | nil => exact absurd hbuf h
      | cons a l => simp
    simp [flush, hb]
  · by_cases hb : st.buffer.isEmpty
    · have hbuf : st.buffer = [] := by simpa using hb
      simp [flush, hb, hbuf]
    · simp [flush, hb]

/-- Witness for C7 at a concrete non-empty accumulator state. -/
theorem flush_spec_witness :
    flush ⟨"hello".toList⟩ = ((process_segment ("hello".toList)).getLast?, ⟨[]⟩) :=
  (flush_spec.1 ⟨"hello".toList⟩).2.1 (by decide)

/-! Section: Line-level noise filter (`sanitize_cli_output_line`, lines 1–23)

Modelled over `List Char`, like the accumulator; `String` literals are
converted with `String.toList` at the boundary. -/

/-- ASCII apostrophe (U+0027), used to assemble the warning substrings. -/
def apos : Char := Char.ofNat 39

/-- Embeds `str::contains` — substring containment on character lists. -/
def containsSub (needle : List Char) : List Char → Bool
  | [] => needle.isEmpty
  | c :: rest => needle.isPrefixOf (c :: rest) || containsSub needle rest

/-- The Node trace-warnings hint dropped by the filter (line 12). -/
def trace_warnings_hint : List Char :=
  "(Use `node --trace-warnings ...` to show where the warning was created)".toList

/-- First recognized non-existent-property warning substring (line 15). -/
def lineno_warning : List Char :=
  "Warning: Accessing non-existent property ".toList
    ++ [apos] ++ "lineno".toList ++ [apos]

/-- Second recognized non-existent-property warning substring (line 16). -/
def filename_warning : List Char :=
  "Warning: Accessing non-existent property ".toList
    ++ [apos] ++ "filename".toList ++ [apos]

/-- The `is_known_warning` predicate of `sanitize_cli_output_line`
(lines 11–16, a local binding in the source): the trimmed line is exactly
the trace-warnings hint, or starts with `"(node:"`, ends with
`"inside circular dependency"`, and contains one of the two recognized
property warnings. -/
def is_known_warning (line : List Char) : Bool :=
  let trimmed := trimChars line
  trimmed == trace_warnings_hint
  || (("(node:".toList).isPrefixOf trimmed
      && ("inside circular dependency".toList).isSuffixOf trimmed
      && (containsSub lineno_warning trimmed || containsSub filename_warning trimmed))

/-- Embeds `sanitize_cli_output_line` (lines 1–23): every line passes through
unchanged unless the agent is codex (ASCII-case-insensitively) and the
line is a known Node warning, in which case it is dropped. -/
def sanitize_cli_output_line (agent line : List Char) : Option (List Char) :=
  if !(eqIgnoreAsciiCaseChars agent ("codex".toList)) then some line
  else if is_known_warning line then none else some line

/-- The legitimate error line from the repository's tests. -/
def npm_err_line : List Char := "npm ERR! missing script: start".toList

/-- The circular-dependency warning with the `lineno` property, from the
repository's tests. -/
def circular_lineno_line : List Char :=
  "(node:47953) ".toList ++ lineno_warning
    ++ " of module exports inside circular dependency".toList

/-- The circular-dependency warning with the `filename` property, from the
repository's tests. -/
def circular_filename_line : List Char :=
  "(node:47953) ".toList ++ filename_warning
    ++ " of module exports inside circular dependency".toList

theorem is_known_warning_iff (line : List Char) :
    is_known_warning line = true ↔
      (trimChars line = trace_warnings_hint
        ∨ (("(node:".toList).isPrefixOf (trimChars line) = true
            ∧ ("inside circular dependency".toList).isSuffixOf (trimChars line) = true
            ∧ (containsSub lineno_warning (trimChars line) = true
                ∨ containsSub filename_warning (trimChars line) = true))) := by
  simp [is_known_warning, Bool.or_eq_true, Bool.and_eq_true, and_assoc]

/-- C4: `sanitize_cli_output_line` drops a line iff the agent is the
filtered agent (codex) and the trimmed line is exactly the trace-warnings
hint, or starts with `"(node:"`, ends with `"inside circular dependency"`,
and contains one of the two recognized non-existent-property warning
substrings (`lineno` / `filename`); every line passes through unchanged
for any other agent; and the superficially similar
`"npm ERR! missing script: start"` is never dropped, for any agent. -/
theorem sanitize_noise_filter_exact :
    (∀ agent line : List Char,
        (sanitize_cli_output_line agent line = none ↔
          (eqIgnoreAsciiCaseChars agent ("codex".toList) = true
            ∧ (trimChars line = trace_warnings_hint
              ∨ (("(node:".toList).isPrefixOf (trimChars line) = true
                  ∧ ("inside circular dependency".toList).isSuffixOf (trimChars line) = true
                  ∧ (containsSub lineno_warning (trimChars line) = true
                      ∨ containsSub filename_warning (trimChars line) = true)))))
        ∧ (eqIgnoreAsciiCaseChars agent ("codex".toList) = false →
            sanitize_cli_output_line agent line = some line)
        ∧ sanitize_cli_output_line agent npm_err_line = some npm_err_line)
    ∧ sanitize_cli_output_line ("codex".toList) trace_warnings_hint = none
    ∧ sanitize_cli_output_line ("codex".toList) circular_lineno_line = none
    ∧ sanitize_cli_output_line ("codex".toList) circular_filename_line = none
    ∧ sanitize_cli_output_line ("claude".toList) trace_warnings_hint
        = some trace_warnings_hint
    ∧ sanitize_cli_output_line ("claude".toList) circular_lineno_line
        = some circular_lineno_line := by
  refine ⟨?_, by decide, by decide, by decide, by decide, by decide⟩
  intro agent line
  refine ⟨?_, ?_, ?_⟩
  · cases h : eqIgnoreAsciiCaseChars agent ("codex".toList) with
    | false => simp at h; simp [sanitize_cli_output_line, h]
    | true =>
      cases hw : is_known_warning line with
      | false =>
        rw [← is_known_warning_iff]
        simp at h; simp [sanitize_cli_output_line, h, hw]
      | true =>
        rw [← is_known_warning_iff]
        simp at h; simp [sanitize_cli_output_line, h, hw]
  · intro hf
    simp at hf; simp [sanitize_cli_output_line, hf]
  · cases h : eqIgnoreAsciiCaseChars agent ("codex".toList) with
    | false => simp at h; simp [sanitize_cli_output_line, h]
    | true =>
      have hn : is_known_warning npm_err_line = false := by decide
      simp at h; simp [sanitize_cli_output_line, h, hn]

/-- Witness for C4 at a concrete agent and line. -/
theorem sanitize_noise_filter_exact_witness :
    sanitize_cli_output_line ("claude".toList) ("hello world".toList)
      = some ("hello world".toList) :=
  (sanitize_noise_filter_exact.1 ("claude".toList) ("hello world".toList)).2.1 (by decide)

/-! Section: Command structure parser (`cli_commands.rs`, lines 176–220)

Modelled over `List Char`; `String` literals are converted with
`String.toList` at the boundary. -/

/-- Rust's `str::split_whitespace`: maximal runs of non-whitespace
characters, with no empty tokens. -/
def splitWs : List Char → List Char → List (List Char)
  | cur, [] => if cur.isEmpty then [] else [cur]
  | cur, c :: rest =>
    if c.isWhitespace then
      if cur.isEmpty then splitWs [] rest else cur :: splitWs [] rest
    else splitWs (cur ++ [c]) rest

/-- Embeds `str::split_whitespace` entry point. -/
def split_whitespace (s : List Char) : List (List Char) := splitWs [] s

/-- Embeds `Vec::join` on character-list tokens. -/
def joinWith (sep : List Char) : List (List Char) → List Char
  | [] => []
  | [x] => x
  | x :: xs => x ++ sep ++ joinWith sep xs

/-- The known agent names and aliases (line 190). -/
def agent_or_aliases : List (List Char) :=
  ["claude".toList, "codex".toList, "gemini".toList,
   "test".toList, "code".toList, "copilot".toList]

/-- Embeds `parse_command_structure` (lines 176–220).  For a message starting
with `/`: strip the leading slashes with `trim_start_matches('/')`
(which removes *every* leading `/`), split on whitespace; an empty split
yields `(agent, "help")`; a first token naming a known agent or alias
routes there (aliases `code`/`copilot` canonicalize to `codex`) with the
remaining tokens joined by single spaces as payload (an empty remainder
yields an empty payload); any other first token returns the whole
original message as a sub-command for the current agent.  Messages
without a leading `/` are returned unchanged. -/
def parse_command_structure (agent message : List Char) : List Char × List Char :=
  if ("/".toList).isPrefixOf message then
    let parts := split_whitespace (message.dropWhile (fun c => c == '/'))
    match parts with
    | [] => (agent, "help".toList)
    | first :: remaining_parts =>
      if agent_or_aliases.contains first then
        let actual_agent :=
          if first == "code".toList || first == "copilot".toList
          then "codex".toList else first
        if remaining_parts.isEmpty then (actual_agent, [])
        else (actual_agent, joinWith (" ".toList) remaining_parts)
      else (agent, message)
  else (agent, message)

/-- C2: alias tokens after a leading `/` resolve to their canonical agent
with the remainder joined by single spaces as payload — `/code help` and
`/codex help` both give `("codex", "help")`, `/code are you there?` gives
`("codex", "are you there?")` — for every current agent; and a message
not starting with `/` is returned unchanged with the current agent. -/
theorem parse_command_aliases :
    (∀ agent : List Char,
        parse_command_structure agent ("/code help".toList)
            = ("codex".toList, "help".toList)
        ∧ parse_command_structure agent ("/code are you there?".toList)
            = ("codex".toList, "are you there?".toList)
        ∧ parse_command_structure agent ("/codex help".toList)
            = ("codex".toList, "help".toList)
        ∧ parse_command_structure agent ("/copilot fix it".toList)
            = ("codex".toList, "fix it".toList)
        ∧ parse_command_structure agent ("/gemini".toList)
            = ("gemini".toList, []))
    ∧ ∀ agent message : List Char, ("/".toList).isPrefixOf message = false →
        parse_command_structure agent message = (agent, message) := by
  constructor
  · intro agent
    exact ⟨rfl, rfl, rfl, rfl, rfl⟩
  · intro agent message h
    simp at h
    simp [parse_command_structure, h]

/-- Witness for C2 at a concrete agent and message. -/
theorem parse_command_aliases_witness :
    parse_command_structure ("claude".toList) ("hello there".toList)
      = ("claude".toList, "hello there".toList) :=
  parse_command_aliases.2 ("claude".toList) ("hello there".toList) (by decide)

/-- C3 counterexample: the claim that only the first leading `/` is
stripped — so that `"//codex help"` would be returned whole as a
sub-command for the current agent — is false: the source uses
`trim_start_matches('/')`, which strips *every* leading slash, so
`"//codex help"` is routed to codex instead. -/
theorem parse_double_slash_counterexample :
    ¬ (parse_command_structure ("claude".toList) ("//codex help".toList)
        = ("claude".toList, "//codex help".toList)) := by
  decide

/-- C3 (amended): when the message begins with `/` the parser strips
*all* leading `/` characters before splitting on whitespace — so
`"//codex help"` resolves to `("codex", "help")` — while a first token
that matches no agent name still returns the whole original message as a
sub-command payload for the current agent, and agent-name matching is
exact with no case folding. -/
theorem parse_slash_stripping_exact_case :
    ∀ agent : List Char,
      parse_command_structure agent ("//codex help".toList)
          = ("codex".toList, "help".toList)
      ∧ parse_command_structure agent ("///gemini hi".toList)
          = ("gemini".toList, "hi".toList)
      ∧ parse_command_structure agent ("/notanagent foo".toList)
          = (agent, "/notanagent foo".toList)
      ∧ parse_command_structure agent ("/CODEX help".toList)
          = (agent, "/CODEX help".toList)
      ∧ parse_command_structure agent ("/Claude hi".toList)
          = (agent, "/Claude hi".toList) := by
  intro agent
  exact ⟨rfl, rfl, rfl, rfl, rfl⟩

/-! Section: Command argument builder (`cli_commands.rs`, lines 73–174) -/

/-- The `model` preference of `AgentSettings`; the only field
`build_agent_command_args` reads. -/
structure AgentSettings where
  model : Option String
deriving DecidableEq

/-- Embeds `AgentSettings::default()`: no model preference. -/
def AgentSettings.mkDefault : AgentSettings := ⟨none⟩

/-- Embeds `AllAgentSettings` (per-agent settings plus the session cap). -/
structure AllAgentSettings where
  claude : AgentSettings
  codex : AgentSettings
  gemini : AgentSettings
  max_concurrent_sessions : Nat
deriving DecidableEq

/-- Embeds `build_agent_command_args` (lines 73–174).  The settings are passed
as a value: the source obtains them from the settings collaborator,
falling back to defaults on failure, before the per-agent `match`.  The
codex execution-mode flags come from
`services/execution_mode_service.rs`, which is not among the sources
under verification; that synthesis is abstracted as the `codex_flags`
parameter (applied to the execution mode and the dangerous-bypass flag),
which none of the claims depend on. -/
def build_agent_command_args
    (codex_flags : Option String → Bool → List String)
    (agent message : String) (settings : AllAgentSettings)
    (execution_mode : Option String) (dangerous_bypass : Bool)
    (permission_mode : Option String) : List String :=
  let current_agent_settings :=
    if agent == "claude" then settings.claude
    else if agent == "codex" then settings.codex
    else if agent == "gemini" then settings.gemini
    else AgentSettings.mkDefault
  let permission_args :=
    match permission_mode with
    | some pm => if !pm.isEmpty then ["--permission-mode", pm] else []
    | none => []
  let model_args :=
    match current_agent_settings.model with
    | some m => if !m.isEmpty then ["--model", m] else []
    | none => []
  let message_args := if !message.isEmpty then [message] else []
  if agent == "claude" then
    ["-p"] ++ message_args ++ ["--output-format", "stream-json", "--verbose"]
      ++ permission_args ++ model_args
  else if agent == "codex" then
    ["exec"] ++ model_args ++ codex_flags execution_mode dangerous_bypass ++ message_args
  else if agent == "gemini" then
    ["--prompt"] ++ permission_args ++ model_args ++ message_args
  else
    message_args

theorem isEmpty_false_of_ne (s : String) (h : s ≠ "") : s.isEmpty = false := by
  cases hb : s.isEmpty with
  | false => rfl
  | true => exact absurd ((String.isEmpty_iff s).mp hb) h

/-- C5: for the gemini agent the argument list is, in order, `--prompt`;
then `--permission-mode <mode>` whenever a (non-empty) permission mode is
supplied; then `--model <model>` whenever a (non-empty) model is
configured in the gemini settings; then the message whenever it is
non-empty — and nothing else, for every execution mode, dangerous-bypass
flag, codex flag synthesis, and settings of the other agents. -/
theorem gemini_args_order (codex_flags : Option String → Bool → List String)
    (cl co : AgentSettings) (mcs : Nat) (em : Option String) (db : Bool)
    (message pm m : String)
    (hmsg : message ≠ "") (hpm : pm ≠ "") (hm : m ≠ "") :
    build_agent_command_args codex_flags "gemini" message ⟨cl, co, ⟨some m⟩, mcs⟩ em db (some pm)
        = ["--prompt", "--permission-mode", pm, "--model", m, message]
    ∧ build_agent_command_args codex_flags "gemini" message ⟨cl, co, ⟨some m⟩, mcs⟩ em db none
        = ["--prompt", "--model", m, message]
    ∧ build_agent_command_args codex_flags "gemini" message ⟨cl, co, ⟨none⟩, mcs⟩ em db (some pm)
        = ["--prompt", "--permission-mode", pm, message]
    ∧ build_agent_command_args codex_flags "gemini" message ⟨cl, co, ⟨none⟩, mcs⟩ em db none
        = ["--prompt", message]
    ∧ build_agent_command_args codex_flags "gemini" "" ⟨cl, co, ⟨some m⟩, mcs⟩ em db (some pm)
        = ["--prompt", "--permission-mode", pm, "--model", m]
    ∧ build_agent_command_args codex_flags "gemini" "" ⟨cl, co, ⟨some ""⟩, mcs⟩ em db (some "")
        = ["--prompt"]
    ∧ build_agent_command_args codex_flags "gemini" "" ⟨cl, co, ⟨none⟩, mcs⟩ em db none
        = ["--prompt"] := by
  have hmsg' := isEmpty_false_of_ne message hmsg
  have hpm' := isEmpty_false_of_ne pm hpm
  have hm' := isEmpty_false_of_ne m hm
  have he : "".isEmpty = true := rfl
  refine ⟨?_, ?_, ?_, ?_, ?_, ?_, ?_⟩ <;>
    simp [build_agent_command_args, hmsg', hpm', hm', he]

/-- Witness for C5 at concrete settings and strings. -/
theorem gemini_args_order_witness :
    build_agent_command_args (fun _ _ => []) "gemini" "hi"
        ⟨⟨none⟩, ⟨none⟩, ⟨some "gemini-2.5-pro"⟩, 10⟩ none false (some "ask")
      = ["--prompt", "--permission-mode", "ask", "--model", "gemini-2.5-pro", "hi"] :=
  (gemini_args_order (fun _ _ => []) ⟨none⟩ ⟨none⟩ 10 none false
    "hi" "ask" "gemini-2.5-pro" (by decide) (by decide) (by decide)).1

/-! Section: Session registry and lifecycle (`cli_commands.rs`, lines 15–302, 723–739)

The two global hash maps (`SESSIONS` and `SESSION_INDEX`) are modelled as
association lists with distinct keys; a `Child` process handle and an
mpsc stdin sender are modelled as abstract `Nat` tokens, since the claims
only depend on their presence and identity. -/

/-- Embeds `SESSION_TIMEOUT_SECONDS` (line 16). -/
def SESSION_TIMEOUT_SECONDS : Int := 1800

/-- Embeds `CLISession` (`lib.rs`, lines 155–163). -/
structure CLISession where
  id : String
  agent : String
  command : String
  working_dir : Option String
  is_active : Bool
  created_at : Int
  last_activity : Int
deriving DecidableEq

/-- Embeds `ActiveSession` (lines 26–31): the session, the shared process
handle (`None` once taken/killed), and the optional stdin channel. -/
structure ActiveSession where
  session : CLISession
  process : Option Nat
  stdin_sender : Option Nat
deriving DecidableEq

/-- The two registry maps: `SESSIONS` (`session_id → ActiveSession`) and
`SESSION_INDEX` (`session_key → session_id`), lines 18–23. -/
structure RegistryState where
  sessions : List (String × ActiveSession)
  session_index : List (String × String)
deriving DecidableEq

/-- Embeds `generate_session_key` (lines 57–62). -/
def generate_session_key (agent : String) (working_dir : Option String) : String :=
  match working_dir with
  | some dir => agent ++ ":" ++ dir
  | none => agent

/-- Embeds `get_agent_quit_command` (lines 64–71). -/
def get_agent_quit_command (agent : String) : String :=
  if agent == "claude" then "/quit"
  else if agent == "codex" then "/exit"
  else if agent == "gemini" then "/quit"
  else "/quit"

/-- Embeds `terminate_session_process` (lines 248–280): remove the session id
from the primary map; when it was present, also remove its session key
from the secondary index (the quit directive and the kill act on the
removed session's process only, and so do not affect the registry).
Always returns `Ok(())`. -/
def terminate_session_process (st : RegistryState) (session_id : String) :
    RegistryState × Except String Unit :=
  match List.lookup session_id st.sessions with
  | none => (st, Except.ok ())
  | some session =>
    let sessions := st.sessions.filter (fun p => !(p.1 == session_id))
    let session_key := generate_session_key session.session.agent session.session.working_dir
    let session_index := st.session_index.filter (fun p => !(p.1 == session_key))
    (⟨sessions, session_index⟩, Except.ok ())

/-- The first phase of `cleanup_inactive_sessions` (lines 283–295): the
ids of the sessions inactive for more than the configured timeout. -/
def sessions_to_remove (current_time : Int) (st : RegistryState) : List String :=
  (st.sessions.filter
    (fun p => decide (current_time - p.2.session.last_activity > SESSION_TIMEOUT_SECONDS))).map
    Prod.fst

/-- Embeds `cleanup_inactive_sessions` (lines 282–302): terminate each
over-threshold session id in turn. -/
def cleanup_inactive_sessions (current_time : Int) (st : RegistryState) : RegistryState :=
  (sessions_to_remove current_time st).foldl
    (fun s session_id => (terminate_session_process s session_id).1) st

/-- Embeds `send_quit_to_session` (lines 723–739): look up the session; with an
stdin channel, send the agent-specific quit directive, newline-terminated
(the `Ok` value models the string sent over the channel); without one,
report `"Session stdin not available"`; for an unknown id, report
`"Session not found"`. -/
def send_quit_to_session (st : RegistryState) (session_id : String) :
    Except String String :=
  match List.lookup session_id st.sessions with
  | some session =>
    match session.stdin_sender with
    | some _ => Except.ok (get_agent_quit_command session.session.agent ++ "\n")
    | none => Except.error "Session stdin not available"
  | none => Except.error "Session not found"

/-! Subsection: Registry lemmas -/

theorem lookup_none_filter (session_id : String) (l : List (String × ActiveSession))
    (h : List.lookup session_id l = none) :
    l.filter (fun p => !(p.1 == session_id)) = l := by
  induction l with
  | nil => rfl
  | cons p rest ih =>
    rw [List.lookup] at h
    cases hp : (session_id == p.1) with
    | true => rw [hp] at h; simp at h
    | false =>
      rw [hp] at h
      have hp' : (p.1 == session_id) = false := by
        cases hq : (p.1 == session_id) with
        | false => rfl
        | true =>
          have := beq_iff_eq.mp hq
          rw [this] at hp
          simp at hp
      simp only [List.filter_cons, hp', Bool.not_false, if_true]
      rw [ih h]

theorem terminate_sessions_eq (st : RegistryState) (session_id : String) :
    ((terminate_session_process st session_id).1).sessions
      = st.sessions.filter (fun p => !(p.1 == session_id)) := by
  cases h : List.lookup session_id st.sessions with
  | none =>
    simp only [terminate_session_process, h]
    exact (lookup_none_filter session_id st.sessions h).symm
  | some s => simp [terminate_session_process, h]

theorem cleanup_fold_sessions_eq (R : List String) :
    ∀ st : RegistryState,
      (R.foldl (fun s session_id => (terminate_session_process s session_id).1) st).sessions
        = st.sessions.filter (fun p => !(R.contains p.1)) := by
  induction R with
  | nil =>
    intro st
    simp [List.filter]
  | cons r R ih =>
    intro st
    rw [List.foldl_cons, ih, terminate_sessions_eq, List.filter_filter]
    congr 1
    funext p
    cases h1 : (p.1 == r) <;> cases h2 : R.contains p.1 <;>
      simp only [List.contains_cons, h1, h2] <;> rfl

theorem keys_nodup_value_unique (l : List (String × ActiveSession))
    (h : (l.map Prod.fst).Nodup) {session_id : String} {a b : ActiveSession}
    (ha : (session_id, a) ∈ l) (hb : (session_id, b) ∈ l) : a = b := by
  induction l with
  | nil => cases ha
  | cons p rest ih =>
    rw [List.map_cons, List.nodup_cons] at h
    rcases List.mem_cons.mp ha with hae | ha'
    · rcases List.mem_cons.mp hb with hbe | hb'
      · exact congrArg Prod.snd (hae.trans hbe.symm)
      · exfalso
        apply h.1
        rw [← hae]
        exact List.mem_map.mpr ⟨(session_id, b), hb', rfl⟩
    · rcases List.mem_cons.mp hb with hbe | hb'
      · exfalso
        apply h.1
        rw [← hbe]
        exact List.mem_map.mpr ⟨(session_id, a), ha', rfl⟩
      · exact ih h.2 ha' hb'

theorem lookup_none_of_keys_ne (session_id : String) (l : List (String × ActiveSession))
    (h : ∀ p ∈ l, p.1 ≠ session_id) : List.lookup session_id l = none := by
  induction l with
  | nil => rfl
  | cons p rest ih =>
    have hp : (session_id == p.1) = false := by
      cases hq : (session_id == p.1) with
      | false => rfl
      | true => exact absurd (beq_iff_eq.mp hq).symm (h p (List.mem_cons_self p rest))
    rw [List.lookup, hp]
    exact ih (fun q hq => h q (List.mem_cons_of_mem p hq))

/-- C6: an idle-sweep pass terminates exactly the registered sessions
whose elapsed time since `last_activity` strictly exceeds the fixed
1800-second threshold: such a session is selected for removal and absent
from the registry afterwards, while every session at or below the
threshold is left registered with its `ActiveSession` value untouched. -/
theorem idle_sweep_threshold (current_time : Int) (st : RegistryState)
    (hnd : (st.sessions.map Prod.fst).Nodup) (session_id : String) (s : ActiveSession)
    (hmem : (session_id, s) ∈ st.sessions) :
    (current_time - s.session.last_activity > SESSION_TIMEOUT_SECONDS →
        session_id ∈ sessions_to_remove current_time st
        ∧ List.lookup session_id (cleanup_inactive_sessions current_time st).sessions
            = none)
    ∧ (current_time - s.session.last_activity ≤ SESSION_TIMEOUT_SECONDS →
        (session_id, s) ∈ (cleanup_inactive_sessions current_time st).sessions) := by
  have hsessions : (cleanup_inactive_sessions current_time st).sessions
      = st.sessions.filter
          (fun p => !((sessions_to_remove current_time st).contains p.1)) :=
    cleanup_fold_sessions_eq _ st
  constructor
  · intro hover
    have hid : session_id ∈ sessions_to_remove current_time st := by
      unfold sessions_to_remove
      refine List.mem_map.mpr ⟨(session_id, s), ?_, rfl⟩
      refine List.mem_filter.mpr ⟨hmem, ?_⟩
      simpa using hover
    refine ⟨hid, ?_⟩
    rw [hsessions]
    apply lookup_none_of_keys_ne
    intro p hp hcontra
    have hkeep := (List.mem_filter.mp hp).2
    rw [hcontra] at hkeep
    rw [Bool.not_eq_true', ← Bool.not_eq_true] at hkeep
    exact hkeep (List.elem_iff.mpr hid)
  · intro hunder
    have hnot : session_id ∉ sessions_to_remove current_time st := by
      intro hin
      unfold sessions_to_remove at hin
      rcases List.mem_map.mp hin with ⟨q, hq, hq1⟩
      rcases List.mem_filter.mp hq with ⟨hqmem, hqover⟩
      have hqpair : (session_id, q.2) ∈ st.sessions := by
        have hqe : q = (session_id, q.2) := by
          cases q with
          | mk q1 q2 => simp only at hq1; rw [hq1]
        rw [← hqe]
        exact hqmem
      have hval : q.2 = s := keys_nodup_value_unique st.sessions hnd hqpair hmem
      rw [hval] at hqover
      simp only [decide_eq_true_eq] at hqover
      omega
    rw [hsessions]
    refine List.mem_filter.mpr ⟨hmem, ?_⟩
    simp only [Bool.not_eq_true']
    cases hc : (sessions_to_remove current_time st).contains session_id with
    | false => rfl
    | true => exact absurd (List.elem_iff.mp hc) hnot

/-- Witness for C6: a two-session registry at a concrete sweep time — the
stale session is swept, the fresh one survives. -/
theorem idle_sweep_threshold_witness :
    ("old" ∈ sessions_to_remove 5000
        ⟨[("old", ⟨⟨"old", "codex", "codex", none, true, 0, 0⟩, some 1, none⟩),
          ("new", ⟨⟨"new", "claude", "claude", none, true, 4000, 4000⟩, some 2, none⟩)], []⟩
      ∧ List.lookup "old" (cleanup_inactive_sessions 5000
          ⟨[("old", ⟨⟨"old", "codex", "codex", none, true, 0, 0⟩, some 1, none⟩),
            ("new", ⟨⟨"new", "claude", "claude", none, true, 4000, 4000⟩, some 2, none⟩)],
           []⟩).sessions = none)
    ∧ ("new", ⟨⟨"new", "claude", "claude", none, true, 4000, 4000⟩, some 2, none⟩)
        ∈ (cleanup_inactive_sessions 5000
            ⟨[("old", ⟨⟨"old", "codex", "codex", none, true, 0, 0⟩, some 1, none⟩),
              ("new", ⟨⟨"new", "claude", "claude", none, true, 4000, 4000⟩, some 2, none⟩)],
             []⟩).sessions :=
  ⟨(idle_sweep_threshold 5000 _ (by decide) "old"
      ⟨⟨"old", "codex", "codex", none, true, 0, 0⟩, some 1, none⟩
      (by decide)).1 (by decide),
   (idle_sweep_threshold 5000 _ (by decide) "new"
      ⟨⟨"new", "claude", "claude", none, true, 4000, 4000⟩, some 2, none⟩
      (by decide)).2 (by decide)⟩

/-- C9: terminating an unknown session id returns success and has no
side effects — the primary session map, the secondary index, and
therefore every other session's process handle and stdin channel, are
exactly as before. -/
theorem terminate_unknown_id_noop (st : RegistryState) (session_id : String)
    (h : List.lookup session_id st.sessions = none) :
    terminate_session_process st session_id = (st, Except.ok ())
    ∧ (terminate_session_process st session_id).1.sessions = st.sessions
    ∧ (terminate_session_process st session_id).1.session_index = st.session_index := by
  have hmain : terminate_session_process st session_id = (st, Except.ok ()) := by
    simp [terminate_session_process, h]
  exact ⟨hmain, by rw [hmain], by rw [hmain]⟩

/-- Witness for C9 at a concrete registry and unknown id. -/
theorem terminate_unknown_id_noop_witness :
    terminate_session_process
        ⟨[("s1", ⟨⟨"s1", "codex", "codex", none, true, 0, 0⟩, some 1, some 7⟩)],
         [("codex", "s1")]⟩ "nope"
      = (⟨[("s1", ⟨⟨"s1", "codex", "codex", none, true, 0, 0⟩, some 1, some 7⟩)],
          [("codex", "s1")]⟩, Except.ok ()) :=
  (terminate_unknown_id_noop
    ⟨[("s1", ⟨⟨"s1", "codex", "codex", none, true, 0, 0⟩, some 1, some 7⟩)],
     [("codex", "s1")]⟩ "nope" (by decide)).1

/-- C8: `send_quit_to_session` distinguishes its two failure modes — an
unregistered id yields the error `"Session not found"`, a registered
session without an stdin channel yields `"Session stdin not available"`
— and only a registered session with an stdin channel gets the
agent-specific quit directive, newline-terminated, with success. -/
theorem send_quit_error_modes (st : RegistryState) (session_id : String) :
    (List.lookup session_id st.sessions = none →
        send_quit_to_session st session_id = Except.error "Session not found")
    ∧ (∀ s : ActiveSession, List.lookup session_id st.sessions = some s →
        s.stdin_sender = none →
        send_quit_to_session st session_id = Except.error "Session stdin not available")
    ∧ (∀ (s : ActiveSession) (tok : Nat),
        List.lookup session_id st.sessions = some s →
        s.stdin_sender = some tok →
        send_quit_to_session st session_id
          = Except.ok (get_agent_quit_command s.session.agent ++ "\n")) := by
  refine ⟨?_, ?_, ?_⟩
  · intro h
    simp [send_quit_to_session, h]
  · intro s hs hstdin
    simp [send_quit_to_session, hs, hstdin]
  · intro s tok hs hstdin
    simp [send_quit_to_session, hs, hstdin]

/-- Witness for C8: a registered session without stdin reports the
stdin-unavailable error. -/
theorem send_quit_error_modes_witness :
    send_quit_to_session
        ⟨[("s1", ⟨⟨"s1", "codex", "codex", none, true, 0, 0⟩, some 1, none⟩)],
         [("codex", "s1")]⟩ "s1"
      = Except.error "Session stdin not available" :=
  (send_quit_error_modes
      ⟨[("s1", ⟨⟨"s1", "codex", "codex", none, true, 0, 0⟩, some 1, none⟩)],
       [("codex", "s1")]⟩ "s1").2.1
    ⟨⟨"s1", "codex", "codex", none, true, 0, 0⟩, some 1, none⟩ (by decide) rfl
